import Mathlib

/-
Shallow embedding of the wayback-title repository (src/server.js,
src/public/js/app.js, src/unnamed/part_000 — the CLI variant wayback-last.mjs).

Network effects are modelled by explicit environments: the outcome of each
external HTTP interaction (the CDX index query, the per-snapshot document
fetch, the Perplexity classification call) is a parameter of the embedded
function.  JavaScript exceptions are modelled by `Except JsError` /
`Option`; a JS `Error` object is modelled by its `name` and `message`.
Strings are ASCII-faithful: `toLowerCase`, `trim` and `slice` are modelled
character-wise (JS handles further Unicode whitespace / case pairs that do
not occur in this code's data).
-/

/-- Model of a JavaScript `Error` object: its `name` and `message`. -/
structure JsError where
  name : String
  message : String
deriving DecidableEq, Repr

/-- `String(e)` for a JS `Error`: `name` when the message is empty,
`name ++ ": " ++ message` otherwise. -/
def jsErrorToString (e : JsError) : String :=
  if e.message = "" then e.name else e.name ++ ": " ++ e.message

/-- `String(e.message || e)` as used by the per-snapshot error path. -/
def errMessageOrString (e : JsError) : String :=
  if e.message = "" then jsErrorToString e else e.message

/-- JS whitespace test used to model `String.prototype.trim` (ASCII part). -/
def isJsSpace (c : Char) : Bool :=
  c == ' ' || c == '\t' || c == '\n' || c == '\r'

/-- Model of JS `s.trim()`. -/
def jsTrim (s : String) : String :=
  ⟨((s.data.dropWhile isJsSpace).reverse.dropWhile isJsSpace).reverse⟩

/-- Lowercase a character list; model of the character action of
`String.prototype.toLowerCase` (ASCII). -/
def lowerChars (l : List Char) : List Char := l.map Char.toLower

/-- Model of JS `s.toLowerCase()`. -/
def jsToLower (s : String) : String := ⟨lowerChars s.data⟩

/-- Model of JS `s.slice(0, n)`. -/
def takeChars (s : String) (n : Nat) : String := ⟨s.data.take n⟩

/-- Truthiness of an optional JS string (`undefined`/`null`/`""` are falsy). -/
def optTruthy : Option String → Bool
  | some s => s != ""
  | none => false

/-- One parsed row of the CDX index response, as built by `getCdxRows`
(src/server.js lines 78-85): positional decode of
`fl=timestamp,original,mimetype,statuscode,digest,length`. -/
structure CdxRow where
  timestamp : String
  original : String
  mimetype : String
  statuscode : String
  digest : String
  length : Int
deriving DecidableEq, Repr

/-- The record returned by `extractFromSnapshot` (src/server.js lines 118-126). -/
structure Parsed where
  title : String
  description : String
  canonical : String
  robots : String
  og_title : String
  og_description : String
  h1_count : Nat
deriving DecidableEq, Repr

/-- One snapshot entry of a `DomainResult`, as built in `processDomain`
(src/server.js lines 204-254).  A successful entry carries no `error`;
a failed entry carries no `category`. -/
structure Snapshot where
  timestamp : String
  snapshot : String
  original : String
  status : String
  length : Int
  digest : String
  title : String
  description : String
  canonical : String
  robots : String
  og_title : String
  og_description : String
  h1_count : Nat
  category : Option String := none
  error : Option String := none
deriving DecidableEq, Repr

/-- The per-domain result `{ domain, snapshots }` (src/server.js line 260). -/
structure DomainResult where
  domain : String
  snapshots : List Snapshot
deriving DecidableEq, Repr

/-- `makeIdUrl` (src/server.js lines 88-90). -/
def makeIdUrl (timestamp original : String) : String :=
  "https://web.archive.org/web/" ++ timestamp ++ "id_/" ++ original

/-- Outcome of the Perplexity `fetch` in `analyzeWithPerplexity`:
either a resolved response (its `ok` flag and the optional
`data.choices?.[0]?.message?.content` string), or a thrown error
(network failure or JSON parse failure, both landing in the `catch`). -/
inductive PerplexityOutcome
  | resp (ok : Bool) (content : Option String)
  | thrown (e : JsError)
deriving DecidableEq, Repr

/-- The fixed allow-list of category labels (src/server.js lines 184-187). -/
def validCategories : List String :=
  ["Clean", "Casino/Jeux", "Contenu adulte", "Pharma/Santé", "Finance suspect",
   "Contrefaçon", "Piratage", "Spam générique", "E-commerce", "Blog/Info", "Tech", "Actualités"]

/-- `analyzeWithPerplexity` (src/server.js lines 130-194), with the HTTP
call's outcome supplied as `outcome`.  Returns `none` on a falsy API key or
empty title, on a non-OK response, and on any thrown error; otherwise the
trimmed reply validated against `validCategories`, an unrecognized (or
absent) reply coerced to `"Spam/Suspect"`. -/
def analyzeWithPerplexity (outcome : PerplexityOutcome)
    (title : String) (_description : String) (_domain : String)
    (apiKey : Option String) : Option String :=
  if !optTruthy apiKey || title == "" then none
  else
    match outcome with
    | .thrown _ => none
    | .resp ok content =>
      if !ok then none
      else
        match content.map jsTrim with
        | some category =>
          some (if validCategories.contains category then category else "Spam/Suspect")
        | none => some "Spam/Suspect"

/-- Environment of one domain's processing: the outcome of the CDX index
query (`getCdxRows`), the outcome of `extractFromSnapshot` for each snapshot
URL, and the outcome of the Perplexity HTTP call as a function of the
extracted title and description. -/
structure DomainEnv where
  cdx : Except JsError (List CdxRow)
  extract : String → Except JsError Parsed
  perplexity : String → String → PerplexityOutcome

/-- The per-row body of `processDomain`'s `rows.map` (src/server.js
lines 204-255): build the `id_` URL, extract, optionally enrich with the
Perplexity category; on failure produce the error-carrying entry with the
identifying fields kept and all metadata fields empty. -/
def processRow (env : DomainEnv) (domain : String) (analyzeContent : Bool)
    (apiKey : Option String) (row : CdxRow) : Snapshot :=
  let snap := makeIdUrl row.timestamp row.original
  match env.extract snap with
  | .ok parsed =>
    let base : Snapshot :=
      { timestamp := row.timestamp, snapshot := snap, original := row.original,
        status := row.statuscode, length := row.length, digest := row.digest,
        title := parsed.title, description := parsed.description,
        canonical := parsed.canonical, robots := parsed.robots,
        og_title := parsed.og_title, og_description := parsed.og_description,
        h1_count := parsed.h1_count }
    if analyzeContent && optTruthy apiKey && parsed.title != "" then
      match analyzeWithPerplexity (env.perplexity parsed.title parsed.description)
          parsed.title parsed.description domain apiKey with
      | some category => { base with category := some category }
      | none => base
    else base
  | .error e =>
    { timestamp := row.timestamp, snapshot := snap, original := row.original,
      status := row.statuscode, length := row.length, digest := row.digest,
      title := "", description := "", canonical := "", robots := "",
      og_title := "", og_description := "", h1_count := 0,
      error := some (errMessageOrString e) }

/-- `processDomain` (src/server.js lines 196-261).  The index query failing
propagates as the thrown error; an empty row list returns
`{ domain, snapshots: [] }`; otherwise every row is mapped to a snapshot
entry (the JS runs them under `Promise.all`, which preserves positions). -/
def processDomain (env : DomainEnv) (domain : String) (analyzeContent : Bool)
    (apiKey : Option String) : Except JsError DomainResult :=
  match env.cdx with
  | .error e => .error e
  | .ok [] => .ok { domain := domain, snapshots := [] }
  | .ok rows => .ok { domain := domain, snapshots := rows.map (processRow env domain analyzeContent apiKey) }

/-- Outcome of one `fetch(url, ...)` call inside `fetchRetry`: either a
resolved response (status, and the body text that `res.text().catch(() => "")`
would yield) or a rejected promise (transport error). -/
inductive FetchAttempt
  | resp (status : Nat) (text : String)
  | reject (e : JsError)
deriving DecidableEq, Repr

/-- `res.ok`: status in the 200-299 range. -/
def respOk (status : Nat) : Bool := 200 ≤ status && status ≤ 299

/-- The `new Error("HTTP <status> for <url>\n<text.slice(0, 200)>")`
thrown for a non-OK, non-retried response. -/
def httpStatusError (status : Nat) (url : String) (text : String) : JsError :=
  ⟨"Error", "HTTP " ++ toString status ++ " for " ++ url ++ "\n" ++ takeChars text 200⟩

/-- Observable trace of one `fetchRetry` call: its result, how many `fetch`
attempts ran, and the backoff sleeps (in ms, in order). -/
structure FetchTrace where
  result : Except JsError (Nat × String)
  attempts : Nat
  sleeps : List Nat
deriving Repr

/-- The loop of `fetchRetry` (src/server.js lines 33-62; identical in
src/unnamed/part_000 lines 94-124), iteration index `i`, fuel
`retries + 1 - i`, and the `lastErr` variable.  Faithful detail: the
`throw new Error("HTTP ...")` for a non-retryable status sits inside the
`try`, so it is caught by the same `catch` that handles transport errors
and, when `i < retries`, triggers a backoff sleep and another attempt. -/
def fetchRetryGo (f : Nat → FetchAttempt) (url : String) (retries backoffMs : Nat) :
    Nat → Nat → Option JsError → FetchTrace
  | _, 0, lastErr =>
    { result := .error (lastErr.getD ⟨"TypeError", "undefined thrown"⟩), attempts := 0, sleeps := [] }
  | i, fuel + 1, lastErr =>
    match f i with
    | .resp status text =>
      if respOk status then
        { result := .ok (status, text), attempts := 1, sleeps := [] }
      else if (status == 429 || 500 ≤ status) && i < retries then
        let r := fetchRetryGo f url retries backoffMs (i + 1) fuel lastErr
        { r with attempts := r.attempts + 1, sleeps := backoffMs * 2 ^ i :: r.sleeps }
      else
        let e := httpStatusError status url text
        if i < retries then
          let r := fetchRetryGo f url retries backoffMs (i + 1) fuel (some e)
          { r with attempts := r.attempts + 1, sleeps := backoffMs * 2 ^ i :: r.sleeps }
        else
          { result := .error e, attempts := 1, sleeps := [] }
    | .reject e =>
      if i < retries then
        let r := fetchRetryGo f url retries backoffMs (i + 1) fuel (some e)
        { r with attempts := r.attempts + 1, sleeps := backoffMs * 2 ^ i :: r.sleeps }
      else
        { result := .error e, attempts := 1, sleeps := [] }

/-- `fetchRetry(url, opts, retries, backoffMs)` with the `fetch` outcomes
supplied by `f` (outcome of the i-th attempt). -/
def fetchRetry (f : Nat → FetchAttempt) (url : String) (retries backoffMs : Nat) : FetchTrace :=
  fetchRetryGo f url retries backoffMs 0 (retries + 1) none

/-- One event written to the NDJSON stream of `POST /api/extract`
(src/server.js lines 549-567). -/
inductive StreamEvent
  | progress (domain : String)
  | result (data : DomainResult)
  | error (domain : String) (message : String)
deriving DecidableEq, Repr

/-- The terminal event of one domain's iteration: `result` on success,
`error` carrying "Erreur pour <domain>: <error.message>" when
`processDomain` throws. -/
def terminalEvent (domain : String) (r : Except JsError DomainResult) : StreamEvent :=
  match r with
  | .ok dr => .result dr
  | .error e => .error domain ("Erreur pour " ++ domain ++ ": " ++ e.message)

/-- The `for (const domain of domains)` loop of `POST /api/extract`
(src/server.js lines 549-567): for each domain, in order, a `progress`
event with the caller-supplied string, then the terminal event of
`processDomain(domain.trim(), ...)`. -/
def streamExtract (envOf : String → DomainEnv) (analyzeContent : Bool)
    (apiKey : Option String) : List String → List StreamEvent
  | [] => []
  | d :: rest =>
    .progress d :: terminalEvent d (processDomain (envOf d) (jsTrim d) analyzeContent apiKey)
      :: streamExtract envOf analyzeContent apiKey rest

/-- The `domains` field of an inbound batch request body: absent (or any
falsy value), a truthy non-array value, or an array of strings. -/
inductive DomainsField
  | missing
  | nonArray
  | arr (domains : List String)
deriving DecidableEq, Repr

/-- Outcome of a handler's request validation. -/
inductive ValidationOutcome
  | reject (status : Nat) (error : String)
  | accept (domains : List String)
deriving DecidableEq, Repr

/-- Validation of `POST /api/v1/extract` (src/server.js lines 318-332):
`!domains || !Array.isArray(domains)` is rejected with 400, then
`domains.length > 50` is rejected with 400. -/
def v1BulkValidate (f : DomainsField) : ValidationOutcome :=
  match f with
  | .missing => .reject 400 "domains array is required"
  | .nonArray => .reject 400 "domains array is required"
  | .arr ds => if ds.length > 50 then .reject 400 "Maximum 50 domains per request" else .accept ds

/-- Validation of the streaming `POST /api/extract` (src/server.js
lines 542-544): only `!domains || !Array.isArray(domains)` is rejected. -/
def streamValidate (f : DomainsField) : ValidationOutcome :=
  match f with
  | .missing => .reject 400 "Domains array is required"
  | .nonArray => .reject 400 "Domains array is required"
  | .arr ds => .accept ds

/-- The streaming handler `POST /api/extract` (src/server.js lines 539-570):
validation first; only an accepted request reaches `processDomain` and the
event loop. -/
def streamHandler (envOf : String → DomainEnv) (analyzeContent : Bool)
    (apiKey : Option String) (f : DomainsField) : Except (Nat × String) (List StreamEvent) :=
  match streamValidate f with
  | .reject status err => .error (status, err)
  | .accept ds => .ok (streamExtract envOf analyzeContent apiKey ds)

/-- JS regex `\w`: ASCII letter, digit or underscore. -/
def isWordChar (c : Char) : Bool := c.isAlphanum || c == '_'

/-- Whether position `p` of `t` holds a word character (out of range counts
as non-word, as at the ends of a regex subject). -/
def wordCharAt (t : List Char) (p : Nat) : Bool :=
  match t.get? p with
  | some c => isWordChar c
  | none => false

/-- Whether `k` occurs in `t` starting at position `p`. -/
def matchesAt : List Char → List Char → Nat → Bool
  | _, [], _ => true
  | t, c :: ks, p =>
    match t.get? p with
    | some c2 => c2 == c && matchesAt t ks (p + 1)
    | none => false

/-- JS `t.includes(k)` on character lists (plain, case-sensitive substring). -/
def containsSub (t k : List Char) : Bool :=
  (List.range (t.length + 1)).any (fun p => matchesAt t k p)

/-- JS regex `\b` at position `p` of `t`: exactly one of the neighbouring
positions holds a word character. -/
def boundaryAt (t : List Char) (p : Nat) : Bool :=
  (match p with
   | 0 => false
   | q + 1 => wordCharAt t q) != wordCharAt t p

/-- The literal keyword `k` occurs at `p` in `t` with `\b` on both sides. -/
def wbMatchAt (t k : List Char) (p : Nat) : Bool :=
  matchesAt t k p && boundaryAt t p && boundaryAt t (p + k.length)

/-- JS `new RegExp("\\b" + k + "\\b").test(t)` for a literal keyword `k`. -/
def wbContains (t k : List Char) : Bool :=
  (List.range (t.length + 1)).any (fun p => wbMatchAt t k p)

/-- `matchesSpamKeyword` (src/public/js/app.js lines 223-233): keywords of
length <= 3 are tested with the case-insensitive word-boundary regex
`\b<keyword>\b` (modelled by lowering both sides, `\w` being stable under
ASCII lowering); longer keywords use plain case-sensitive `includes`. -/
def matchesSpamKeyword (text keyword : String) : Bool :=
  if keyword.length ≤ 3 then
    wbContains (lowerChars text.data) (lowerChars keyword.data)
  else
    containsSub text.data keyword.data

/-- `spamKeywords` (src/public/js/app.js lines 149-179), in source order. -/
def spamKeywords : List String :=
  ["casino", "poker", "jackpot", "slots", "roulette", "blackjack", "bingo", "lottery",
   "gambling", "betting", "wager", "odds", "bookmaker", "sportsbook", "bet365",
   "spin", "fortune", "lucky", "vegas", "monte carlo",
   "adult", "porn", "xxx", "explicit", "nude", "naked", "escort", "erotic",
   "milf", "amateur", "webcam", "hookup", "fetish", "nsfw",
   "viagra", "cialis", "levitra", "pharmacy", "prescription", "pills", "medication",
   "weight loss", "diet pills", "slim", "fat burner", "supplement",
   "crypto", "bitcoin", "forex", "trading", "investment", "loan", "credit",
   "payday", "debt", "mortgage", "insurance", "binary options", "get rich",
   "make money fast", "earn from home",
   "replica", "fake", "counterfeit", "cheap", "discount", "wholesale",
   "designer", "luxury", "rolex", "gucci", "louis vuitton",
   "hack", "crack", "keygen", "serial", "activation", "license key",
   "torrent", "download", "free software", "pirate",
   "click here", "limited time", "act now", "urgent", "exclusive offer",
   "guaranteed", "risk free", "no obligation", "winner", "congratulations"]

/-- The literal fragments of the `legitimatePatterns` regex alternations
(src/public/js/app.js lines 237-248). -/
def legitimateFragments : List String :=
  ["football", "soccer", "sport", "match", "league", "team", "player",
   "news", "media", "journal", "press", "info", "actualite",
   ".gov.", ".edu.", ".org.", "ministere", "education", "universite",
   "google", "microsoft", "apple", "amazon", "facebook", "twitter", "youtube",
   "tech", "software", "app", "web", "dev", "code", "github"]

/-- `isLegitimatePattern` (src/public/js/app.js lines 236-251): the domain
matches some legitimate pattern, i.e. contains one of the literal
fragments (each regex being an alternation of literals). -/
def isLegitimatePattern (domain : String) : Bool :=
  legitimateFragments.any (fun frag => containsSub domain.data frag.data)

/-- The category table of `categorizeSpam`
(src/public/js/app.js lines 258-266), in insertion order. -/
def spamCategoryTable : List (String × List String) :=
  [("Casino/Jeux",
    ["casino", "poker", "jackpot", "slots", "roulette", "blackjack", "bingo", "lottery",
     "gambling", "betting", "wager", "odds", "bookmaker", "sportsbook", "bet365",
     "spin", "fortune", "lucky", "vegas"]),
   ("Contenu adulte",
    ["adult", "porn", "xxx", "sex", "sexy", "nude", "naked", "escort", "dating",
     "milf", "teens", "amateur", "webcam", "cam", "live", "chat", "hookup"]),
   ("Pharma/Santé",
    ["viagra", "cialis", "levitra", "pharmacy", "prescription", "pills", "medication",
     "weight loss", "diet pills", "slim", "fat burner", "supplement"]),
   ("Finance suspect",
    ["crypto", "bitcoin", "forex", "trading", "investment", "loan", "credit",
     "payday", "debt", "mortgage", "insurance", "binary options", "get rich",
     "make money fast"]),
   ("Contrefaçon",
    ["replica", "fake", "counterfeit", "cheap", "discount", "wholesale",
     "designer", "luxury", "rolex", "gucci", "louis vuitton"]),
   ("Piratage",
    ["hack", "crack", "keygen", "serial", "activation", "license key",
     "torrent", "download", "free software", "pirate"]),
   ("Spam générique",
    ["click here", "limited time", "act now", "urgent", "exclusive offer",
     "guaranteed", "risk free", "no obligation", "winner", "congratulations"])]

/-- `categorizeSpam` (src/public/js/app.js lines 257-274): first category
whose keyword list contains the keyword, else "Spam/Suspect". -/
def categorizeSpam (keyword : String) : String :=
  match spamCategoryTable.find? (fun entry => entry.2.contains keyword) with
  | some entry => entry.1
  | none => "Spam/Suspect"

/-- `isSpamCategory` (src/public/js/app.js lines 276-279). -/
def isSpamCategory (category : String) : Bool :=
  ["Casino/Jeux", "Contenu adulte", "Spam/Suspect", "Pharma/Santé",
   "Finance suspect", "Contrefaçon", "Piratage"].contains category

/-- First keyword of `spamKeywords` (in source order) matching `text`,
mirroring the `for (const keyword of this.spamKeywords)` loops. -/
def firstKeywordMatch (text : String) : Option String :=
  spamKeywords.find? (fun keyword => matchesSpamKeyword text keyword)

/-- The per-snapshot body of `isSpamDomain`'s snapshot loop
(src/public/js/app.js lines 200-217): keyword scan over the lowercased
`title + ' ' + description`, then the Perplexity `category` check.  Returns
the `spamCategory` that would be assigned, or `none`. -/
def snapshotSpam (s : Snapshot) : Option String :=
  let text := jsToLower s.title ++ " " ++ jsToLower s.description
  match firstKeywordMatch text with
  | some keyword => some (categorizeSpam keyword)
  | none =>
    match s.category with
    | some c => if isSpamCategory c then some c else none
    | none => none

/-- The snapshot loop of `isSpamDomain`: first snapshot (in order) that
triggers, with its category. -/
def snapshotsSpam : List Snapshot → Option String
  | [] => none
  | s :: rest =>
    match snapshotSpam s with
    | some c => some c
    | none => snapshotsSpam rest

/-- `isSpamDomain` (src/public/js/app.js lines 182-220) as the category it
assigns: `none` means the function returns false (clean).  The legitimate
pattern check short-circuits to clean; then the domain-name keyword scan;
then the snapshot loop. -/
def spamVerdict (d : DomainResult) : Option String :=
  let domain := jsToLower d.domain
  if isLegitimatePattern domain then none
  else
    match firstKeywordMatch domain with
    | some keyword => some (categorizeSpam keyword)
    | none => snapshotsSpam d.snapshots

/-- The boolean returned by `isSpamDomain`. -/
def isSpamDomain (d : DomainResult) : Bool :=
  (spamVerdict d).isSome

/-- `isCleanDomain` (src/public/js/app.js lines 253-255). -/
def isCleanDomain (d : DomainResult) : Bool :=
  !isSpamDomain d

/-- Case-insensitive substring occurrence: the spec-side notion of a plain
case-insensitive keyword match. -/
def ciContains (t k : String) : Bool :=
  containsSub (jsToLower t).data (jsToLower k).data

/-
HTML document model for the Metadata Extractor.  `cheerio.load` parses any
input string into a node tree without throwing; the extraction logic of
`extractFromSnapshot` is embedded over that tree.  An element holds a tag
name (lowercased by the HTML parser), an attribute list and children.
-/

mutual
/-- A parsed HTML node: element or text. -/
inductive HNode
  | elem (tag : String) (attrs : List (String × String)) (children : HForest)
  | txt (s : String)
/-- A sequence of sibling HTML nodes. -/
inductive HForest
  | nil
  | cons (head : HNode) (tail : HForest)
end

mutual
/-- All element nodes of a node, itself included, in document (pre-)order. -/
def nodeElems : HNode → List HNode
  | .elem tag attrs children => .elem tag attrs children :: forestElems children
  | .txt _ => []
/-- All element nodes of a forest in document (pre-)order. -/
def forestElems : HForest → List HNode
  | .nil => []
  | .cons h t => nodeElems h ++ forestElems t
end

mutual
/-- The text content of a node (`$(el).text()`). -/
def nodeText : HNode → String
  | .elem _ _ children => forestText children
  | .txt s => s
/-- The concatenated text content of a forest. -/
def forestText : HForest → String
  | .nil => ""
  | .cons h t => nodeText h ++ forestText t
end

/-- Whether an element node has the given tag. -/
def hasTag (tag : String) : HNode → Bool
  | .elem t _ _ => t == tag
  | .txt _ => false

/-- The value of an attribute on an element node, if present. -/
def getAttr (n : HNode) (name : String) : Option String :=
  match n with
  | .elem _ attrs _ => (attrs.find? (fun a => a.1 == name)).map (fun a => a.2)
  | .txt _ => none

/-- `$(tag)` on the whole document: elements in document order. -/
def selectTag (doc : HForest) (tag : String) : List HNode :=
  (forestElems doc).filter (hasTag tag)

/-- `$(tag[attrName="attrVal"])` on the whole document. -/
def selectTagAttr (doc : HForest) (tag attrName attrVal : String) : List HNode :=
  (forestElems doc).filter (fun n => hasTag tag n && getAttr n attrName == some attrVal)

/-- The `pick` helper of `extractFromSnapshot` (src/server.js line 100):
`$(sel).attr(attr) || ""` — the attribute of the first matched element,
empty when the selection is empty or the attribute absent. -/
def pickAttr (selection : List HNode) (attr : String) : String :=
  match selection.head? with
  | some n => (getAttr n attr).getD ""
  | none => ""

/-- The extraction rules of `extractFromSnapshot` (src/server.js
lines 100-126; identical in src/unnamed/part_000 lines 169-178) applied to
the parsed document.  The Wayback-element cleanup pass (lines 111-116)
mutates only the document, after these fields are computed, and does not
affect the returned record. -/
def extractFromDoc (doc : HForest) : Parsed :=
  { title :=
      (match (selectTag doc "title").head? with
       | some n => jsTrim (nodeText n)
       | none => "")
  , description := pickAttr (selectTagAttr doc "meta" "name" "description") "content"
  , canonical := pickAttr (selectTagAttr doc "link" "rel" "canonical") "href"
  , robots := pickAttr (selectTagAttr doc "meta" "name" "robots") "content"
  , og_title := pickAttr (selectTagAttr doc "meta" "property" "og:title") "content"
  , og_description := pickAttr (selectTagAttr doc "meta" "property" "og:description") "content"
  , h1_count := (selectTag doc "h1").length }

/-
Stream consumer (src/public/js/app.js `startExtraction`, lines 63-91;
identical in src/unnamed/part_000 lines 304-332).  `JSON.parse` is a
platform builtin; it is modelled here for the flat NDJSON event objects
(one brace pair, string keys and values) that the `progress` and `error`
events are: on those inputs the model agrees with `JSON.parse`, and any
line outside that shape is a parse failure.
-/

/-- Body of a JSON string literal: characters until the closing quote,
a backslash escaping the next character. -/
def parseStringBody : List Char → List Char → Option (String × List Char)
  | [], _ => none
  | '"' :: rest, acc => some (⟨acc.reverse⟩, rest)
  | '\\' :: c :: rest, acc => parseStringBody rest (c :: acc)
  | '\\' :: [], _ => none
  | c :: rest, acc => parseStringBody rest (c :: acc)

/-- Parse a JSON string literal at the head of the input; returns the
string and the rest. -/
def parseStringLit : List Char → Option (String × List Char)
  | '"' :: rest => parseStringBody rest []
  | _ => none

/-- Parse the members `"k":"v"("," "k":"v")* "}"` of a flat JSON object,
requiring the input to end at the closing brace. -/
def parseMembers : Nat → List Char → Option (List (String × String))
  | 0, _ => none
  | fuel + 1, cs =>
    match parseStringLit cs with
    | none => none
    | some (k, cs1) =>
      match cs1 with
      | ':' :: cs2 =>
        match parseStringLit cs2 with
        | none => none
        | some (v, cs3) =>
          match cs3 with
          | ['}'] => some [(k, v)]
          | ',' :: cs4 => (parseMembers fuel cs4).map (fun tl => (k, v) :: tl)
          | _ => none
      | _ => none

/-- Model of `JSON.parse` on a flat object line. -/
def parseFlatObj (line : String) : Option (List (String × String)) :=
  match line.data with
  | '{' :: cs => parseMembers (cs.length + 1) cs
  | _ => none

/-- Field lookup on a parsed flat object. -/
def lookupField (obj : List (String × String)) (k : String) : Option String :=
  (obj.find? (fun a => a.1 == k)).map (fun a => a.2)

/-- An event as the consumer's dispatch sees it.  `other` covers parsed
objects whose `type` is none of the dispatched flat kinds (the consumer
leaves its state unchanged on them). -/
inductive ConsumedEvent
  | progress (domain : String)
  | errorEv (message : String)
  | other
deriving DecidableEq, Repr

/-- `JSON.parse(line)` followed by the `data.type` dispatch of the consumer. -/
def parseLine (line : String) : Option ConsumedEvent :=
  (parseFlatObj line).map (fun obj =>
    match lookupField obj "type" with
    | some "progress" => .progress ((lookupField obj "domain").getD "")
    | some "error" => .errorEv ((lookupField obj "message").getD "")
    | _ => .other)

/-- The consumer's observable state (src/public/js/app.js lines 6-11).
The `results` array is not tracked: a `result` event carries a nested
`data` object, outside the flat-object fragment the `JSON.parse` model
covers, and no theorem below depends on `result` lines. -/
structure ConsumerState where
  errors : List String
  currentDomain : String
  completedDomains : Nat
deriving DecidableEq, Repr

/-- Per-line processing (src/public/js/app.js lines 73-90): a line that
fails to parse is logged and skipped, the loop continues. -/
def processLine (st : ConsumerState) (line : String) : ConsumerState :=
  match parseLine line with
  | none => st
  | some (.progress d) => { st with currentDomain := d }
  | some (.errorEv m) =>
    { st with errors := st.errors ++ [m], completedDomains := st.completedDomains + 1 }
  | some .other => st

/-- Model of JS `chunk.split('\n')`: split at every newline, keeping empty
pieces (including a trailing one). -/
def splitNl : List Char → List Char → List String
  | [], acc => [⟨acc.reverse⟩]
  | '\n' :: rest, acc => ⟨acc.reverse⟩ :: splitNl rest []
  | c :: rest, acc => splitNl rest (c :: acc)

/-- `chunk.split('\n').filter(line => line.trim())` (src/public/js/app.js
line 71). -/
def splitChunkLines (chunk : String) : List String :=
  (splitNl chunk.data []).filter (fun line => jsTrim line != "")

/-- Per-chunk processing: each decoded chunk is split on newlines
independently — no partial line is carried over to the next chunk. -/
def processChunk (st : ConsumerState) (chunk : String) : ConsumerState :=
  (splitChunkLines chunk).foldl processLine st

/-- The `while (true) { ... reader.read() ... }` loop over the received
chunks (src/public/js/app.js lines 66-91). -/
def processChunks (chunks : List String) (st : ConsumerState) : ConsumerState :=
  chunks.foldl processChunk st

/-- Whether a stream event is a `progress` event. -/
def isProgressEv : StreamEvent → Bool
  | .progress _ => true
  | _ => false

/-- Whether a stream event is terminal (`result` or `error`). -/
def isTerminalEv : StreamEvent → Bool
  | .progress _ => false
  | .result _ => true
  | .error _ _ => true

def c1WitnessRow : CdxRow :=
  ⟨"20200101000000", "http://ex.com/", "text/html", "200", "ABCD", 1234⟩

def c1WitnessEnv : DomainEnv :=
  { cdx := .ok [c1WitnessRow]
  , extract := fun _ => .error ⟨"Error", "socket hang up"⟩
  , perplexity := fun _ _ => .thrown ⟨"Error", "no network"⟩ }

/-- An environment whose index query succeeds with no rows; used by
concrete witnesses. -/
def emptyCdxEnv : DomainEnv :=
  { cdx := .ok []
  , extract := fun _ => .error ⟨"Error", "unused"⟩
  , perplexity := fun _ _ => .thrown ⟨"Error", "unused"⟩ }

/-- An environment whose index query fails; used by concrete witnesses. -/
def failingCdxEnv : DomainEnv :=
  { cdx := .error ⟨"Error", "HTTP 503 for cdx"⟩
  , extract := fun _ => .error ⟨"Error", "unused"⟩
  , perplexity := fun _ _ => .thrown ⟨"Error", "unused"⟩ }

/-- A domain result whose only snapshot carries the Tier-2 label "Clean"
while its domain name contains the Tier-1 keyword "casino" and matches no
legitimate pattern. -/
def c5Example : DomainResult :=
  { domain := "casino-games.xyz",
    snapshots := [{
      timestamp := "20200101000000",
      snapshot := "https://web.archive.org/web/20200101000000id_/http://casino-games.xyz/",
      original := "http://casino-games.xyz/", status := "200", length := 100,
      digest := "AAAA", title := "Great Site", description := "", canonical := "",
      robots := "", og_title := "", og_description := "", h1_count := 1,
      category := some "Clean", error := none }] }

/-- A snapshot with no Tier-1 keyword in its title or description,
carrying the Tier-2 spam label "Casino/Jeux". -/
def c5AmendedSnap : Snapshot :=
  { timestamp := "20200101000000",
    snapshot := "https://web.archive.org/web/20200101000000id_/http://quiet.example/",
    original := "http://quiet.example/", status := "200", length := 100,
    digest := "BBBB", title := "Nice flowers", description := "", canonical := "",
    robots := "", og_title := "", og_description := "", h1_count := 1,
    category := some "Casino/Jeux", error := none }

/-- A domain result with no Tier-1 keyword match anywhere and one snapshot
carrying the Tier-2 spam label "Casino/Jeux". -/
def c5AmendedExample : DomainResult :=
  { domain := "quiet.example", snapshots := [c5AmendedSnap] }

/-- A concrete parsed document: html > (head > title "Hello") and
(body > h1, p, h1) — one title "Hello", two h1 elements, no meta and no
link elements. -/
def c9WitnessDoc : HForest :=
  .cons (.elem "html" []
    (.cons (.elem "head" [] (.cons (.elem "title" [] (.cons (.txt "Hello") .nil)) .nil))
      (.cons (.elem "body" []
        (.cons (.elem "h1" [] (.cons (.txt "One") .nil))
          (.cons (.elem "p" [] (.cons (.txt "Body text") .nil))
            (.cons (.elem "h1" [] (.cons (.txt "Two") .nil)) .nil))))
        .nil)))
    .nil

/-
Theorems.
-/

/-- Claim C1: for every domain whose index query succeeds with k snapshot
rows, `processDomain` returns a `DomainResult` whose snapshots list has
exactly k entries, one per index row in the same positions; a per-snapshot
fetch/extract failure yields an entry with the identifying fields populated,
all metadata string fields empty, `h1_count` 0 and a non-empty error string
(non-empty because a JS `Error` has a non-empty `name` or `message`), and
never removes or aborts sibling entries; and k = 0 yields
`{domain, snapshots: []}` with no error. -/
theorem C1_snapshot_alignment (env : DomainEnv) (domain : String) (ac : Bool)
    (key : Option String) (rows : List CdxRow) (hcdx : env.cdx = .ok rows) :
    processDomain env domain ac key
        = .ok { domain := domain, snapshots := rows.map (processRow env domain ac key) }
    ∧ (∀ dr, processDomain env domain ac key = .ok dr → dr.snapshots.length = rows.length)
    ∧ (∀ row e, env.extract (makeIdUrl row.timestamp row.original) = .error e →
        processRow env domain ac key row =
          { timestamp := row.timestamp, snapshot := makeIdUrl row.timestamp row.original,
            original := row.original, status := row.statuscode, length := row.length,
            digest := row.digest, title := "", description := "", canonical := "",
            robots := "", og_title := "", og_description := "", h1_count := 0,
            category := none, error := some (errMessageOrString e) }
          ∧ (e.name ≠ "" ∨ e.message ≠ "" → errMessageOrString e ≠ ""))
    ∧ (rows = [] → processDomain env domain ac key = .ok { domain := domain, snapshots := [] }) := by
  have h1 : processDomain env domain ac key
      = .ok { domain := domain, snapshots := rows.map (processRow env domain ac key) } := by
    cases rows with
    | nil => unfold processDomain; rw [hcdx]; rfl
    | cons r rs => unfold processDomain; rw [hcdx]
  refine ⟨h1, ?_, ?_, ?_⟩
  · intro dr hdr
    rw [h1] at hdr
    injection hdr with h
    rw [← h]
    simp
  · intro row e hex
    constructor
    · simp [processRow, hex]
    · intro hne
      unfold errMessageOrString jsErrorToString
      split_ifs with hm
      · rcases hne with h | h
        · exact h
        · exact absurd hm h
      · exact hm
  · intro hrows
    subst hrows
    exact h1

/-- Witness for C1 at a concrete one-row environment whose snapshot fetch
fails. -/
theorem C1_snapshot_alignment_witness :
    processDomain c1WitnessEnv "ex.com" true (some "k")
      = .ok { domain := "ex.com",
              snapshots := [{
                timestamp := "20200101000000",
                snapshot := "https://web.archive.org/web/20200101000000id_/http://ex.com/",
                original := "http://ex.com/", status := "200", length := 1234,
                digest := "ABCD", title := "", description := "", canonical := "",
                robots := "", og_title := "", og_description := "", h1_count := 0,
                category := none, error := some "socket hang up" }] }
    ∧ errMessageOrString ⟨"Error", "socket hang up"⟩ ≠ "" := by
  have h := C1_snapshot_alignment c1WitnessEnv "ex.com" true (some "k") [c1WitnessRow] rfl
  exact ⟨h.1.trans (by rfl),
    (h.2.2.1 c1WitnessRow ⟨"Error", "socket hang up"⟩ rfl).2 (Or.inl (by decide))⟩

/-- Claim C2 concerns `fetchRetry` on a non-429 4xx response.  The claim
states it fails immediately with zero further attempts and no backoff
sleeps.  The code does not: the `throw new Error("HTTP 404 ...")` sits
inside the `try` block, so the `catch` treats it like a transport error and
retries it with backoff.  This theorem evaluates the embedded `fetchRetry`
at the failing input — every attempt resolving to HTTP 404, default
`retries = 3`, `backoffMs = 400` — and shows 4 fetch attempts and three
backoff sleeps (400, 800, 1600 ms) before the HTTP 404 error surfaces. -/
theorem C2_http404_is_retried :
    (fetchRetry (fun _ => .resp 404 "Not Found") "https://example.com/x" 3 400).attempts = 4
    ∧ (fetchRetry (fun _ => .resp 404 "Not Found") "https://example.com/x" 3 400).sleeps
        = [400, 800, 1600]
    ∧ (fetchRetry (fun _ => .resp 404 "Not Found") "https://example.com/x" 3 400).result
        = .error (httpStatusError 404 "https://example.com/x" "Not Found") := by
  refine ⟨rfl, rfl, rfl⟩

theorem isTerminalEv_terminalEvent (d : String) (r : Except JsError DomainResult) :
    isTerminalEv (terminalEvent d r) = true := by
  cases r <;> rfl

theorem isProgressEv_terminalEvent (d : String) (r : Except JsError DomainResult) :
    isProgressEv (terminalEvent d r) = false := by
  cases r <;> rfl

theorem isProgressEv_progress (d : String) : isProgressEv (.progress d) = true := rfl

theorem isTerminalEv_progress (d : String) : isTerminalEv (.progress d) = false := rfl

/-- Claim C3: for every batch of n domains posted to the streaming
extraction endpoint, exactly n `progress` events and exactly n terminal
events (`result` or `error`) are written, in an order where each domain's
`progress` (position 2i) precedes its own terminal event (position 2i+1);
the terminal event is `result` exactly when `processDomain` completes and
`error` exactly when the domain-level processing throws. -/
theorem C3_stream_protocol (envOf : String → DomainEnv) (ac : Bool) (key : Option String)
    (domains : List String) :
    (streamExtract envOf ac key domains).countP isProgressEv = domains.length
    ∧ (streamExtract envOf ac key domains).countP isTerminalEv = domains.length
    ∧ (streamExtract envOf ac key domains).length = 2 * domains.length
    ∧ ∀ i d, domains.get? i = some d →
        (streamExtract envOf ac key domains).get? (2 * i) = some (.progress d)
        ∧ (streamExtract envOf ac key domains).get? (2 * i + 1)
            = some (terminalEvent d (processDomain (envOf d) (jsTrim d) ac key))
        ∧ (∀ dr, processDomain (envOf d) (jsTrim d) ac key = .ok dr →
            terminalEvent d (processDomain (envOf d) (jsTrim d) ac key) = .result dr)
        ∧ (∀ e, processDomain (envOf d) (jsTrim d) ac key = .error e →
            terminalEvent d (processDomain (envOf d) (jsTrim d) ac key)
              = .error d ("Erreur pour " ++ d ++ ": " ++ e.message)) := by
  induction domains with
  | nil =>
    refine ⟨rfl, rfl, rfl, ?_⟩
    intro i d h
    simp [List.get?] at h
  | cons hd tl ih =>
    obtain ⟨ih1, ih2, ih3, ih4⟩ := ih
    refine ⟨?_, ?_, ?_, ?_⟩
    · simp [streamExtract, List.countP_cons, ih1, isProgressEv_progress,
        isProgressEv_terminalEvent]
    · simp [streamExtract, List.countP_cons, ih2, isTerminalEv_progress,
        isTerminalEv_terminalEvent]
    · simp [streamExtract, ih3]
      omega
    · intro i d h
      cases i with
      | zero =>
        rw [List.get?_cons_zero] at h
        injection h with h1
        subst h1
        refine ⟨rfl, rfl, ?_, ?_⟩
        · intro dr hdr
          rw [hdr]
          rfl
        · intro e he
          rw [he]
          rfl
      | succ i =>
        have h2 : tl.get? i = some d := h
        have e2 : 2 * (i + 1) = 2 * i + 1 + 1 := by omega
        rw [e2]
        have hg : ∀ n, (streamExtract envOf ac key (hd :: tl)).get? (n + 1 + 1)
            = (streamExtract envOf ac key tl).get? n := by
          intro n
          rfl
        rw [hg, hg]
        exact ih4 i d h2

/-- Witness for C3 on a concrete 2-domain batch in which the second
domain's index query fails. -/
theorem C3_stream_protocol_witness :
    (streamExtract (fun d => if d = "b.com" then failingCdxEnv else emptyCdxEnv)
        false none ["a.com", "b.com"]).countP isProgressEv = 2
    ∧ (streamExtract (fun d => if d = "b.com" then failingCdxEnv else emptyCdxEnv)
        false none ["a.com", "b.com"]).countP isTerminalEv = 2
    ∧ (streamExtract (fun d => if d = "b.com" then failingCdxEnv else emptyCdxEnv)
        false none ["a.com", "b.com"]).get? 0 = some (.progress "a.com")
    ∧ (streamExtract (fun d => if d = "b.com" then failingCdxEnv else emptyCdxEnv)
        false none ["a.com", "b.com"]).get? 1 = some (.result { domain := "a.com", snapshots := [] })
    ∧ (streamExtract (fun d => if d = "b.com" then failingCdxEnv else emptyCdxEnv)
        false none ["a.com", "b.com"]).get? 2 = some (.progress "b.com")
    ∧ (streamExtract (fun d => if d = "b.com" then failingCdxEnv else emptyCdxEnv)
        false none ["a.com", "b.com"]).get? 3
        = some (.error "b.com" "Erreur pour b.com: HTTP 503 for cdx") := by
  have h := C3_stream_protocol (fun d => if d = "b.com" then failingCdxEnv else emptyCdxEnv)
    false none ["a.com", "b.com"]
  refine ⟨h.1, h.2.1, ?_, ?_, ?_, ?_⟩
  · exact (h.2.2.2 0 "a.com" rfl).1
  · exact ((h.2.2.2 0 "a.com" rfl).2.1).trans (by rfl)
  · exact (h.2.2.2 1 "b.com" rfl).1
  · exact ((h.2.2.2 1 "b.com" rfl).2.1).trans (by rfl)

theorem processDomain_ok_domain (env : DomainEnv) (d : String) (ac : Bool)
    (key : Option String) (dr : DomainResult)
    (h : processDomain env d ac key = .ok dr) : dr.domain = d := by
  unfold processDomain at h
  cases hc : env.cdx with
  | error e =>
    rw [hc] at h
    simp at h
  | ok rows =>
    rw [hc] at h
    cases rows with
    | nil =>
      injection h with h1
      rw [← h1]
    | cons r rs =>
      injection h with h1
      rw [← h1]

/-- Claim C10: in the streamed batch, a domain's `progress` event carries
the caller-supplied string verbatim while its `result` event's
`data.domain` carries the trimmed string; when the input domain has
leading or trailing whitespace the two events name the domain
differently. -/
theorem C10_progress_raw_result_trimmed (envOf : String → DomainEnv) (ac : Bool)
    (key : Option String) (domain : String) (rest : List String) (dr : DomainResult)
    (h : processDomain (envOf domain) (jsTrim domain) ac key = .ok dr) :
    streamExtract envOf ac key (domain :: rest)
      = .progress domain :: .result dr :: streamExtract envOf ac key rest
    ∧ dr.domain = jsTrim domain
    ∧ (jsTrim domain ≠ domain → dr.domain ≠ domain) := by
  have hdom : dr.domain = jsTrim domain := processDomain_ok_domain _ _ _ _ _ h
  refine ⟨?_, hdom, ?_⟩
  · simp [streamExtract, h, terminalEvent]
  · intro hne
    rw [hdom]
    exact hne

/-- Witness for C10 at the concrete input " ex.com " (whitespace-padded). -/
theorem C10_progress_raw_result_trimmed_witness :
    streamExtract (fun _ => emptyCdxEnv) false none [" ex.com "]
      = [.progress " ex.com ", .result { domain := "ex.com", snapshots := [] }]
    ∧ ("ex.com" : String) ≠ " ex.com " := by
  have h := C10_progress_raw_result_trimmed (fun _ => emptyCdxEnv) false none
    " ex.com " [] { domain := "ex.com", snapshots := [] } rfl
  exact ⟨h.1.trans (by rfl), h.2.2 (by decide)⟩

/-- Counterexample to claim C6: the claim says every batch request with an
empty domain list is rejected and every batch request with more than 50
domains is rejected.  In the code, an empty array passes
`!domains || !Array.isArray(domains)` on both endpoints (an empty array is
truthy in JS), and the streaming `/api/extract` endpoint has no
50-domain cap at all: 51 domains are accepted there. -/
theorem C6_validation_counterexample :
    v1BulkValidate (.arr []) = .accept []
    ∧ streamValidate (.arr []) = .accept []
    ∧ streamValidate (.arr (List.replicate 51 "d.com")) = .accept (List.replicate 51 "d.com")
    ∧ streamHandler (fun _ => emptyCdxEnv) false none (.arr []) = .ok [] := by
  refine ⟨rfl, rfl, rfl, rfl⟩

/-- Claim C6 amended: a batch request whose `domains` field is missing,
falsy, or not an array is rejected with HTTP 400 before any processing, on
both endpoints; `POST /api/v1/extract` additionally rejects more than 50
domains with HTTP 400; an empty domain array is accepted on both endpoints
(yielding an empty result), and the streaming `/api/extract` endpoint
imposes no domain-count cap. -/
theorem C6_validation_amended (envOf : String → DomainEnv) (ac : Bool)
    (key : Option String) (f : DomainsField) (ds : List String) :
    ((f = .missing ∨ f = .nonArray) →
        v1BulkValidate f = .reject 400 "domains array is required"
        ∧ streamHandler envOf ac key f = .error (400, "Domains array is required"))
    ∧ (ds.length > 50 → v1BulkValidate (.arr ds) = .reject 400 "Maximum 50 domains per request")
    ∧ (ds.length ≤ 50 → v1BulkValidate (.arr ds) = .accept ds)
    ∧ streamValidate (.arr ds) = .accept ds
    ∧ streamHandler envOf ac key (.arr ds) = .ok (streamExtract envOf ac key ds) := by
  refine ⟨?_, ?_, ?_, rfl, rfl⟩
  · rintro (rfl | rfl) <;> exact ⟨rfl, rfl⟩
  · intro hgt
    unfold v1BulkValidate
    simp [hgt]
  · intro hle
    unfold v1BulkValidate
    simp [Nat.not_lt.mpr hle]

/-- Witness for the amended C6 at concrete requests: a missing field, a
51-domain array, and a 1-domain array. -/
theorem C6_validation_amended_witness :
    v1BulkValidate .missing = .reject 400 "domains array is required"
    ∧ streamHandler (fun _ => emptyCdxEnv) false none .missing
        = .error (400, "Domains array is required")
    ∧ v1BulkValidate (.arr (List.replicate 51 "d.com"))
        = .reject 400 "Maximum 50 domains per request"
    ∧ v1BulkValidate (.arr ["a.com"]) = .accept ["a.com"] := by
  have h := C6_validation_amended (fun _ => emptyCdxEnv) false none .missing
    (List.replicate 51 "d.com")
  have h2 := C6_validation_amended (fun _ => emptyCdxEnv) false none .missing ["a.com"]
  exact ⟨(h.1 (Or.inl rfl)).1, (h.1 (Or.inl rfl)).2, h.2.1 (by decide), h2.2.2.1 (by decide)⟩

/-- Claim C8: `analyzeWithPerplexity` validates the classifier's reply
against the fixed allow-list, coercing any unrecognized reply to
"Spam/Suspect" instead of returning it verbatim (and passing a recognized
reply through); any non-OK HTTP response or thrown error makes it return
`none` — no enrichment, no propagated error; and within `processDomain`'s
per-row body a record whose extracted title is empty never gets a
category (the call is guarded by `parsed.title`). -/
theorem C8_perplexity_contract (c title description domain : String) (key : Option String)
    (e : JsError) (content : Option String) (env : DomainEnv) (dom2 : String) (ac : Bool)
    (row : CdxRow) (parsed : Parsed) :
    (optTruthy key = true → title ≠ "" → jsTrim c ∉ validCategories →
        analyzeWithPerplexity (.resp true (some c)) title description domain key
          = some "Spam/Suspect")
    ∧ (optTruthy key = true → title ≠ "" → jsTrim c ∈ validCategories →
        analyzeWithPerplexity (.resp true (some c)) title description domain key
          = some (jsTrim c))
    ∧ analyzeWithPerplexity (.resp false content) title description domain key = none
    ∧ analyzeWithPerplexity (.thrown e) title description domain key = none
    ∧ (env.extract (makeIdUrl row.timestamp row.original) = .ok parsed → parsed.title = "" →
        (processRow env dom2 ac key row).category = none) := by
  refine ⟨?_, ?_, ?_, ?_, ?_⟩
  · intro hk ht hc
    simp [analyzeWithPerplexity, hk, ht, hc]
  · intro hk ht hc
    simp [analyzeWithPerplexity, hk, ht, hc]
  · unfold analyzeWithPerplexity
    split
    · rfl
    · rfl
  · unfold analyzeWithPerplexity
    split
    · rfl
    · rfl
  · intro hex ht
    simp [processRow, hex, ht]

/-- Witness for C8 at concrete replies, outcomes, and a record whose
extracted title is empty. -/
theorem C8_perplexity_contract_witness :
    analyzeWithPerplexity (.resp true (some " Gibberish ")) "T" "" "d" (some "k")
      = some "Spam/Suspect"
    ∧ analyzeWithPerplexity (.resp true (some " Clean ")) "T" "" "d" (some "k")
      = some "Clean"
    ∧ analyzeWithPerplexity (.resp false (some "Clean")) "T" "" "d" (some "k") = none
    ∧ analyzeWithPerplexity (.thrown ⟨"Error", "socket hang up"⟩) "T" "" "d" (some "k") = none
    ∧ (processRow
        (⟨.ok [c1WitnessRow], fun _ => .ok ⟨"", "", "", "", "", "", 0⟩,
          fun _ _ => .resp true (some "Clean")⟩ : DomainEnv)
        "d" true (some "k") c1WitnessRow).category = none := by
  have h1 := C8_perplexity_contract " Gibberish " "T" "" "d" (some "k")
    ⟨"Error", "socket hang up"⟩ (some "Clean")
    (⟨.ok [c1WitnessRow], fun _ => .ok ⟨"", "", "", "", "", "", 0⟩,
      fun _ _ => .resp true (some "Clean")⟩ : DomainEnv)
    "d" true c1WitnessRow ⟨"", "", "", "", "", "", 0⟩
  have h2 := C8_perplexity_contract " Clean " "T" "" "d" (some "k")
    ⟨"Error", "socket hang up"⟩ (some "Clean")
    (⟨.ok [c1WitnessRow], fun _ => .ok ⟨"", "", "", "", "", "", 0⟩,
      fun _ _ => .resp true (some "Clean")⟩ : DomainEnv)
    "d" true c1WitnessRow ⟨"", "", "", "", "", "", 0⟩
  exact ⟨h1.1 rfl (by decide) (by decide), h2.2.1 rfl (by decide) (by decide),
    h1.2.2.1, h1.2.2.2.1, h1.2.2.2.2 rfl rfl⟩

/-- Counterexample to claim C5: the claim says a Tier-2 category label on a
snapshot takes precedence over the Tier-1 heuristic for the final
clean/suspicious classification.  For `c5Example` the snapshot's Tier-2
label is "Clean" (a non-spam allow-list label), yet `isSpamDomain`
classifies the domain suspicious via the Tier-1 keyword "casino" in the
domain name — Tier-1 decides, not the Tier-2 label. -/
theorem C5_tier_precedence_counterexample :
    isSpamDomain c5Example = true
    ∧ c5Example.snapshots.map Snapshot.category = [some "Clean"]
    ∧ isSpamCategory "Clean" = false
    ∧ spamVerdict c5Example = some "Casino/Jeux" := by
  decide

theorem snapshotsSpam_no_keyword (l : List Snapshot)
    (h : ∀ s ∈ l, firstKeywordMatch (jsToLower s.title ++ " " ++ jsToLower s.description) = none) :
    ((snapshotsSpam l).isSome = true
      ↔ ∃ s ∈ l, ∃ c, s.category = some c ∧ isSpamCategory c = true) := by
  induction l with
  | nil => simp [snapshotsSpam]
  | cons s rest ih =>
    have hs := h s (by simp)
    have hrest := ih (fun x hx => h x (by simp [hx]))
    cases hcat : s.category with
    | none =>
      have hstep : snapshotsSpam (s :: rest) = snapshotsSpam rest := by
        simp only [snapshotsSpam, snapshotSpam, hs, hcat]
      rw [hstep, hrest]
      constructor
      · rintro ⟨x, hx, hc⟩
        exact ⟨x, List.mem_cons_of_mem s hx, hc⟩
      · rintro ⟨x, hx, c2, hceq, hcsp⟩
        rcases List.mem_cons.mp hx with rfl | hx2
        · rw [hcat] at hceq
          cases hceq
        · exact ⟨x, hx2, c2, hceq, hcsp⟩
    | some c =>
      by_cases hsc : isSpamCategory c
      · have hstep : snapshotsSpam (s :: rest) = some c := by
          simp only [snapshotsSpam, snapshotSpam, hs, hcat, if_pos hsc]
        rw [hstep]
        constructor
        · intro _
          exact ⟨s, List.mem_cons_self s rest, c, hcat, hsc⟩
        · intro _
          rfl
      · have hstep : snapshotsSpam (s :: rest) = snapshotsSpam rest := by
          simp only [snapshotsSpam, snapshotSpam, hs, hcat, if_neg hsc]
        rw [hstep, hrest]
        constructor
        · rintro ⟨x, hx, hc⟩
          exact ⟨x, List.mem_cons_of_mem s hx, hc⟩
        · rintro ⟨x, hx, c2, hceq, hcsp⟩
          rcases List.mem_cons.mp hx with rfl | hx2
          · rw [hcat] at hceq
            injection hceq with hcc
            subst hcc
            exact absurd hcsp hsc
          · exact ⟨x, hx2, c2, hceq, hcsp⟩

/-- Claim C5 amended: a snapshot's Tier-2 category label is consulted only
after Tier-1 — the legitimate-pattern check, the domain-name keyword scan
and the snapshot's own title/description keyword scan all take precedence;
when every Tier-1 check is silent, the domain is classified suspicious
exactly when some snapshot carries a spam-indicating Tier-2 label, and a
non-spam Tier-2 label (e.g. "Clean") cannot override a Tier-1 keyword hit
(see the counterexample). -/
theorem C5_tier_precedence_amended (d : DomainResult)
    (hleg : isLegitimatePattern (jsToLower d.domain) = false)
    (hdom : firstKeywordMatch (jsToLower d.domain) = none)
    (htext : ∀ s ∈ d.snapshots,
        firstKeywordMatch (jsToLower s.title ++ " " ++ jsToLower s.description) = none) :
    (isSpamDomain d = true
      ↔ ∃ s ∈ d.snapshots, ∃ c, s.category = some c ∧ isSpamCategory c = true) := by
  have hv : spamVerdict d = snapshotsSpam d.snapshots := by
    simp only [spamVerdict, hleg, hdom]
    rfl
  unfold isSpamDomain
  rw [hv]
  exact snapshotsSpam_no_keyword d.snapshots htext

/-- Witness for the amended C5: a domain with no Tier-1 match whose single
snapshot carries the Tier-2 label "Casino/Jeux" is classified suspicious. -/
theorem C5_tier_precedence_amended_witness :
    isSpamDomain c5AmendedExample = true := by
  refine (C5_tier_precedence_amended c5AmendedExample (by decide) (by decide) ?_).mpr ?_
  · intro s hs
    simp only [c5AmendedExample, List.mem_singleton] at hs
    subst hs
    decide
  · exact ⟨c5AmendedSnap, by simp [c5AmendedExample], "Casino/Jeux", rfl, rfl⟩

theorem boundaryAt_zero (t : List Char) : boundaryAt t 0 = (false != wordCharAt t 0) := rfl

theorem boundaryAt_succ (t : List Char) (q : Nat) :
    boundaryAt t (q + 1) = (wordCharAt t q != wordCharAt t (q + 1)) := rfl

theorem boundary_left (t : List Char) (p : Nat) (h : boundaryAt t p = true)
    (hp : wordCharAt t p = true) : p = 0 ∨ wordCharAt t (p - 1) = false := by
  cases p with
  | zero => exact Or.inl rfl
  | succ q =>
    right
    rw [boundaryAt_succ, hp] at h
    cases hx : wordCharAt t q with
    | false => exact hx
    | true =>
      rw [hx] at h
      exact absurd h (by decide)

theorem boundary_right (t : List Char) (n : Nat) (h : boundaryAt t (n + 1) = true)
    (hl : wordCharAt t n = true) : wordCharAt t (n + 1) = false := by
  rw [boundaryAt_succ, hl] at h
  cases hx : wordCharAt t (n + 1) with
  | false => rfl
  | true =>
    rw [hx] at h
    exact absurd h (by decide)

theorem matchesAt_get (t : List Char) : ∀ (k : List Char) (p j : Nat),
    matchesAt t k p = true → j < k.length → t.get? (p + j) = k.get? j := by
  intro k
  induction k with
  | nil =>
    intro p j hm hj
    simp at hj
  | cons c ks ih =>
    intro p j hm hj
    unfold matchesAt at hm
    cases ht : t.get? p with
    | none =>
      rw [ht] at hm
      simp at hm
    | some c2 =>
      rw [ht] at hm
      obtain ⟨hc2, hrest⟩ : c2 = c ∧ matchesAt t ks (p + 1) = true := by simpa using hm
      cases j with
      | zero =>
        rw [Nat.add_zero, ht, hc2]
        rfl
      | succ jj =>
        have hjj : jj < ks.length := Nat.lt_of_succ_lt_succ hj
        have hrec := ih (p + 1) jj hrest hjj
        have harith : p + (jj + 1) = p + 1 + jj := by omega
        rw [harith, hrec]
        rfl

/-- Claim C4: in Tier-1 classification, a keyword of length <= 3 (the
keywords being non-empty words, as the final conjunct checks for the whole
`spamKeywords` table) matches only at word boundaries — any match exhibits
an occurrence flanked on both sides by a text edge or a non-word
character, so it never matches inside a longer word; a keyword longer
than 3 characters matches the lowercased text (as Tier-1 passes it) as a
plain substring, which for the lowercase table keywords is exactly a
case-insensitive substring match of the original text; and a domain
matching a legitimate pattern is classified clean regardless of any
keyword hits (the check short-circuits `isSpamDomain` to false). -/
theorem C4_keyword_matching (text textLower kw : String) (d : DomainResult) :
    (kw.length ≤ 3 → kw ≠ "" → (lowerChars kw.data).all isWordChar = true →
      matchesSpamKeyword text kw = true →
      ∃ p, matchesAt (lowerChars text.data) (lowerChars kw.data) p = true
        ∧ (p = 0 ∨ wordCharAt (lowerChars text.data) (p - 1) = false)
        ∧ wordCharAt (lowerChars text.data) (p + (lowerChars kw.data).length) = false)
    ∧ (3 < kw.length → textLower = jsToLower text → jsToLower kw = kw →
      matchesSpamKeyword textLower kw = ciContains text kw)
    ∧ (isLegitimatePattern (jsToLower d.domain) = true → isSpamDomain d = false)
    ∧ spamKeywords.all (fun k => jsToLower k == k
        && (decide (3 < k.length) || (k != "" && (lowerChars k.data).all isWordChar))) = true := by
  refine ⟨?_, ?_, ?_, by decide⟩
  · intro h3 hne hw hm
    unfold matchesSpamKeyword at hm
    rw [if_pos h3] at hm
    unfold wbContains at hm
    rw [List.any_eq_true] at hm
    obtain ⟨p, hpmem, hp⟩ := hm
    obtain ⟨⟨hmat, hb1⟩, hb2⟩ :
        (matchesAt (lowerChars text.data) (lowerChars kw.data) p = true
          ∧ boundaryAt (lowerChars text.data) p = true)
        ∧ boundaryAt (lowerChars text.data) (p + (lowerChars kw.data).length) = true := by
      simpa [wbMatchAt] using hp
    have hkne : lowerChars kw.data ≠ [] := by
      intro hk
      apply hne
      have hd : kw.data = [] := List.map_eq_nil_iff.mp hk
      cases kw with
      | mk data =>
        cases hd
        rfl
    obtain ⟨c, ks, hk⟩ : ∃ c ks, lowerChars kw.data = c :: ks := by
      cases hkk : lowerChars kw.data with
      | nil => exact absurd hkk hkne
      | cons c ks => exact ⟨c, ks, rfl⟩
    refine ⟨p, hmat, ?_, ?_⟩
    · have hg := matchesAt_get (lowerChars text.data) (lowerChars kw.data) p 0 hmat
        (by rw [hk]; simp)
      rw [Nat.add_zero, hk] at hg
      have hg2 : (lowerChars text.data).get? p = some c := hg
      have hwp : wordCharAt (lowerChars text.data) p = true := by
        simp only [wordCharAt, hg2]
        exact List.all_eq_true.mp hw c (by rw [hk]; exact List.mem_cons_self c ks)
      exact boundary_left _ p hb1 hwp
    · have hlt : ks.length < (lowerChars kw.data).length := by
        rw [hk]
        simp
      have hg := matchesAt_get (lowerChars text.data) (lowerChars kw.data) p ks.length hmat hlt
      have hgv : (lowerChars kw.data).get? ks.length
          = some ((lowerChars kw.data).get ⟨ks.length, hlt⟩) := List.get?_eq_get hlt
      have hg3 : (lowerChars text.data).get? (p + ks.length)
          = some ((lowerChars kw.data).get ⟨ks.length, hlt⟩) := hg.trans hgv
      have hwl : wordCharAt (lowerChars text.data) (p + ks.length) = true := by
        simp only [wordCharAt, hg3]
        exact List.all_eq_true.mp hw _ (List.get_mem _ _ _)
      have harith : p + (lowerChars kw.data).length = (p + ks.length) + 1 := by
        rw [hk, List.length_cons]
        omega
      have hb2' : boundaryAt (lowerChars text.data) ((p + ks.length) + 1) = true := by
        rw [← harith]
        exact hb2
      rw [harith]
      exact boundary_right (lowerChars text.data) (p + ks.length) hb2' hwl
  · intro h3 hTL hKL
    unfold matchesSpamKeyword ciContains
    rw [if_neg (by omega : ¬ kw.length ≤ 3), hTL, hKL]
  · intro hleg
    simp [isSpamDomain, spamVerdict, hleg]

/-- Witness for C4: the short keyword "xxx" matching "Watch XXX movies"
exhibits a word-boundary occurrence; the long keyword "casino" on the
lowercased "CASINO Night" equals the case-insensitive substring test; and
"football-casino.com" is classified clean despite containing the keyword
"casino", because the legitimate pattern "football" short-circuits. -/
theorem C4_keyword_matching_witness :
    (∃ p, matchesAt (lowerChars "Watch XXX movies".data) (lowerChars "xxx".data) p = true
      ∧ (p = 0 ∨ wordCharAt (lowerChars "Watch XXX movies".data) (p - 1) = false)
      ∧ wordCharAt (lowerChars "Watch XXX movies".data)
          (p + (lowerChars "xxx".data).length) = false)
    ∧ matchesSpamKeyword (jsToLower "CASINO Night") "casino"
        = ciContains "CASINO Night" "casino"
    ∧ isSpamDomain { domain := "football-casino.com", snapshots := [] } = false := by
  have h1 := C4_keyword_matching "Watch XXX movies" "x" "xxx"
    { domain := "football-casino.com", snapshots := [] }
  have h2 := C4_keyword_matching "CASINO Night" (jsToLower "CASINO Night") "casino"
    { domain := "football-casino.com", snapshots := [] }
  exact ⟨h1.1 (by decide) (by decide) (by decide) (by decide),
    h2.2.1 (by decide) rfl (by decide), h1.2.2.1 (by decide)⟩

/-- Counterexample to claim C7: the claim says the consumer re-assembles
the byte stream on newline boundaries before parsing, so every well-formed
event is processed exactly once regardless of chunk boundaries.  The code
splits each chunk independently and keeps no partial-line buffer: the
well-formed progress event for "a.com" — which, delivered in one chunk,
sets `currentDomain` — is lost entirely when the chunk boundary falls in
the middle of its JSON line (both fragments fail to parse and are
skipped). -/
theorem C7_chunk_reassembly_counterexample :
    processChunks ["\x7b\"type\":\"progress\",\"doma", "in\":\"a.com\"\x7d\n"]
        { errors := [], currentDomain := "", completedDomains := 0 }
      = { errors := [], currentDomain := "", completedDomains := 0 }
    ∧ processChunks ["\x7b\"type\":\"progress\",\"doma" ++ "in\":\"a.com\"\x7d\n"]
        { errors := [], currentDomain := "", completedDomains := 0 }
      = { errors := [], currentDomain := "a.com", completedDomains := 0 } := by
  refine ⟨rfl, rfl⟩

/-- Claim C7 amended: the consumer splits each received chunk on newlines
independently, carrying no partial line over to the next chunk — the
processed lines are exactly the concatenation of each chunk's own
newline-split, non-blank lines — and a line that fails to parse is skipped
without terminating consumption of the rest of the stream; an event whose
JSON line is split across a chunk boundary is therefore not re-assembled
(see the counterexample, where it is lost). -/
theorem C7_chunk_split_amended (chunks : List String) (st st2 : ConsumerState)
    (line : String) :
    processChunks chunks st = ((chunks.map splitChunkLines).flatten).foldl processLine st
    ∧ (parseLine line = none → processLine st2 line = st2) := by
  constructor
  · induction chunks generalizing st with
    | nil => rfl
    | cons c rest ih =>
      calc processChunks (c :: rest) st
          = processChunks rest (processChunk st c) := rfl
        _ = ((rest.map splitChunkLines).flatten).foldl processLine (processChunk st c) := ih _
        _ = (((c :: rest).map splitChunkLines).flatten).foldl processLine st := by
            rw [List.map_cons, List.flatten_cons, List.foldl_append]
            rfl
  · intro hp
    unfold processLine
    rw [hp]

/-- Witness for the amended C7 at a concrete chunk and a malformed line. -/
theorem C7_chunk_split_amended_witness :
    processChunks ["x\ny"] { errors := [], currentDomain := "", completedDomains := 0 }
      = ((["x\ny"].map splitChunkLines).flatten).foldl processLine
          { errors := [], currentDomain := "", completedDomains := 0 }
    ∧ processLine { errors := [], currentDomain := "", completedDomains := 0 } "oops"
      = { errors := [], currentDomain := "", completedDomains := 0 } := by
  have h := C7_chunk_split_amended ["x\ny"]
    { errors := [], currentDomain := "", completedDomains := 0 }
    { errors := [], currentDomain := "", completedDomains := 0 } "oops"
  exact ⟨h.1, h.2 (by rfl)⟩

theorem selectTagAttr_nil_of_selectTag_nil (doc : HForest) (tag a v : String)
    (h : selectTag doc tag = []) : selectTagAttr doc tag a v = [] := by
  unfold selectTag at h
  unfold selectTagAttr
  rw [List.filter_eq_nil_iff] at h
  rw [List.filter_eq_nil_iff]
  intro n hn
  intro hcc
  obtain ⟨h1, _⟩ : hasTag tag n = true ∧ (getAttr n a == some v) = true := by
    simpa using hcc
  exact h n hn h1

/-- Claim C9: for every parsed document whose first `title` element is
`<title>Hello</title>`, with no `meta` and no `link` elements and exactly
two `h1` elements, extraction yields title "Hello", empty description,
canonical, robots, og_title and og_description, and h1_count 2; and in
general extraction is total — a selector that matches no element yields
the empty-string default (or count 0) for its field rather than an
error. -/
theorem C9_extraction (doc : HForest) :
    ((selectTag doc "title").head? = some (.elem "title" [] (.cons (.txt "Hello") .nil)) →
      selectTag doc "meta" = [] →
      selectTag doc "link" = [] →
      (selectTag doc "h1").length = 2 →
      extractFromDoc doc = { title := "Hello", description := "", canonical := "",
                             robots := "", og_title := "", og_description := "",
                             h1_count := 2 })
    ∧ (selectTagAttr doc "meta" "name" "description" = [] →
        (extractFromDoc doc).description = "")
    ∧ (selectTagAttr doc "link" "rel" "canonical" = [] →
        (extractFromDoc doc).canonical = "")
    ∧ (selectTagAttr doc "meta" "name" "robots" = [] →
        (extractFromDoc doc).robots = "")
    ∧ (selectTagAttr doc "meta" "property" "og:title" = [] →
        (extractFromDoc doc).og_title = "")
    ∧ (selectTagAttr doc "meta" "property" "og:description" = [] →
        (extractFromDoc doc).og_description = "")
    ∧ (selectTag doc "title" = [] → (extractFromDoc doc).title = "")
    ∧ (selectTag doc "h1" = [] → (extractFromDoc doc).h1_count = 0) := by
  refine ⟨?_, ?_, ?_, ?_, ?_, ?_, ?_, ?_⟩
  · intro htitle hmeta hlink hh1
    have hdesc := selectTagAttr_nil_of_selectTag_nil doc "meta" "name" "description" hmeta
    have hrob := selectTagAttr_nil_of_selectTag_nil doc "meta" "name" "robots" hmeta
    have hogt := selectTagAttr_nil_of_selectTag_nil doc "meta" "property" "og:title" hmeta
    have hogd := selectTagAttr_nil_of_selectTag_nil doc "meta" "property" "og:description" hmeta
    have hcan := selectTagAttr_nil_of_selectTag_nil doc "link" "rel" "canonical" hlink
    unfold extractFromDoc
    rw [htitle, hdesc, hrob, hogt, hogd, hcan, hh1]
    rfl
  · intro h
    unfold extractFromDoc
    rw [h]
    rfl
  · intro h
    unfold extractFromDoc
    rw [h]
    rfl
  · intro h
    unfold extractFromDoc
    rw [h]
    rfl
  · intro h
    unfold extractFromDoc
    rw [h]
    rfl
  · intro h
    unfold extractFromDoc
    rw [h]
    rfl
  · intro h
    unfold extractFromDoc
    rw [h]
    rfl
  · intro h
    unfold extractFromDoc
    rw [h]
    rfl

/-- Witness for C9 at the concrete document
html(head(title "Hello"), body(h1, p, h1)). -/
theorem C9_extraction_witness :
    extractFromDoc c9WitnessDoc
      = { title := "Hello", description := "", canonical := "", robots := "",
          og_title := "", og_description := "", h1_count := 2 } :=
  (C9_extraction c9WitnessDoc).1 rfl rfl rfl rfl
